import Mathlib

/-!
Verification of the BinPacker V3 core (`src/algorithm/bin_packer_v3.py`).

The Python code is shallowly embedded over the rational numbers: every
`float` becomes a `ℚ`, Python `round(x, d)` becomes an explicit
quantization `roundTo d` (round-half-up; Python's banker's rounding
differs only at exact half-way points, which no statement here touches),
lists stay lists, and the mutable packer objects become explicit state
records threaded through pure functions.  Each definition mirrors the
source function of the same (snake_case) name.
-/

namespace BinPacker

/-- Mathematical floor of a rational, computable (denominators are positive). -/
def qfloor (q : ℚ) : ℤ := q.num.fdiv (q.den : ℤ)

/-- Embedding of Python `round(x, d)`: quantize to `d` decimal places
(round half up; see module comment). -/
def roundTo (d : Nat) (q : ℚ) : ℚ :=
  (qfloor (q * ((10 ^ d : ℕ) : ℚ) + 1 / 2) : ℚ) / ((10 ^ d : ℕ) : ℚ)

/-- `Point3D` from the source: three float (here rational) coordinates. -/
structure Point3D where
  x : ℚ
  y : ℚ
  z : ℚ
deriving DecidableEq, Repr

/-- `Point3D.__eq__`: coordinate equality after rounding to 3 decimals. -/
def Point3D.req (p q : Point3D) : Bool :=
  decide (roundTo 3 p.x = roundTo 3 q.x) &&
  decide (roundTo 3 p.y = roundTo 3 q.y) &&
  decide (roundTo 3 p.z = roundTo 3 q.z)

/-- Python `point in list` for `List[Point3D]`, which compares with
`Point3D.__eq__` (the rounded equality). -/
def mem3 (p : Point3D) (l : List Point3D) : Bool := l.any (fun q => q.req p)

/-- `Stackability` enum from the source. -/
inductive Stackability where
  | stackable
  | semi_stackable
  | unstackable
deriving DecidableEq, Repr

/-- `Item` dataclass from the source. -/
structure Item where
  id : String
  length : ℚ
  width : ℚ
  height : ℚ
  weight : ℚ
  can_rotate : Bool := true
  destination : String := ""
  is_palletized : Bool := false
  stackability : Stackability := .stackable
deriving DecidableEq, Repr

/-- `Item.volume`. -/
def Item.volume (i : Item) : ℚ := i.length * i.width * i.height

/-- `Item.base_area`. -/
def Item.base_area (i : Item) : ℚ := i.length * i.width

/-- An orientation triple `(length, width, height)` as produced by
`Item.get_rotations`. -/
structure Rot3 where
  l : ℚ
  w : ℚ
  h : ℚ
deriving DecidableEq, Repr

/-- `Item.get_rotations`: exactly the two length/width swaps, in this
fixed order, regardless of `can_rotate`. -/
def Item.get_rotations (i : Item) : List Rot3 :=
  [⟨i.length, i.width, i.height⟩, ⟨i.width, i.length, i.height⟩]

/-- `PlacedItem` dataclass from the source. -/
structure PlacedItem where
  item : Item
  position : Point3D
  rotation : Rot3
deriving DecidableEq, Repr

/-- `PlacedItem.bounds`: min corner = origin, max corner = origin + rotation. -/
def PlacedItem.bounds (p : PlacedItem) : Point3D × Point3D :=
  (p.position,
   ⟨p.position.x + p.rotation.l, p.position.y + p.rotation.w, p.position.z + p.rotation.h⟩)

/-- `PlacedItem.volume` (volume after rotation). -/
def PlacedItem.volume (p : PlacedItem) : ℚ := p.rotation.l * p.rotation.w * p.rotation.h

/-- `CollisionDetector._aabb_collision`. -/
def aabb_collision (b1 b2 : Point3D × Point3D) : Bool :=
  !(decide (b1.2.x ≤ b2.1.x) || decide (b1.1.x ≥ b2.2.x) ||
    decide (b1.2.y ≤ b2.1.y) || decide (b1.1.y ≥ b2.2.y) ||
    decide (b1.2.z ≤ b2.1.z) || decide (b1.1.z ≥ b2.2.z))

/-- `CollisionDetector.check_collision`.  The detector's result cache is
omitted: it is keyed on the exact (item id, position, rotation) and
cleared on every `add_placed_item`, so it never changes the value
computed here, which depends only on (position, rotation, placed set). -/
def check_collision (placed : List PlacedItem) (item : Item) (position : Point3D)
    (rotation : Rot3) : Bool :=
  placed.any (fun q => aabb_collision (PlacedItem.bounds ⟨item, position, rotation⟩) q.bounds)

/-- `SupportValidator._get_support_surface`: placed items whose top face
is at exactly (raw float equality in the source) the given height. -/
def get_support_surface (placed : List PlacedItem) (height : ℚ) :
    List (Point3D × Point3D) :=
  placed.filterMap (fun q =>
    if q.position.z + q.rotation.h = height then
      some (q.position,
            ⟨q.position.x + q.rotation.l, q.position.y + q.rotation.w,
             q.position.z + q.rotation.h⟩)
    else none)

/-- Python's built-in `min` on two rationals. -/
def qmin (a b : ℚ) : ℚ := if a ≤ b then a else b

/-- Python's built-in `max` on two rationals. -/
def qmax (a b : ℚ) : ℚ := if a ≤ b then b else a

/-- `SupportValidator._calculate_intersection_area`. -/
def calculate_intersection_area (item_bounds support_bounds : Point3D × Point3D) : ℚ :=
  let x_overlap := qmax 0 (qmin item_bounds.2.x support_bounds.2.x -
                           qmax item_bounds.1.x support_bounds.1.x)
  let y_overlap := qmax 0 (qmin item_bounds.2.y support_bounds.2.y -
                           qmax item_bounds.1.y support_bounds.1.y)
  x_overlap * y_overlap

/-- `SupportValidator._calculate_support_percentage`. -/
def calculate_support_percentage (position : Point3D) (rotation : Rot3)
    (support_surfaces : List (Point3D × Point3D)) : ℚ :=
  let item_base_area := rotation.l * rotation.w
  let supported_area := (support_surfaces.map (fun s =>
    calculate_intersection_area
      (position, ⟨position.x + rotation.l, position.y + rotation.w, position.z⟩)
      s)).sum
  if item_base_area > 0 then supported_area / item_base_area * 100 else 0

/-- `SupportValidator.validate_support`.  The `item` argument is kept for
signature fidelity; the source never reads it. -/
def validate_support (placed : List PlacedItem) (_item : Item) (position : Point3D)
    (rotation : Rot3) : Bool :=
  if position.z = 0 then true
  else
    let support_surface := get_support_surface placed position.z
    if support_surface.isEmpty then false
    else decide (calculate_support_percentage position rotation support_surface ≥ 100)

/-- `WeightManager._check_stack_height` (default `max_stack_height = 3`). -/
def check_stack_height (max_stack_height : Nat) (placed : List PlacedItem)
    (position : Point3D) : Bool :=
  if position.z = 0 then true
  else
    let stack_height :=
      (placed.filter (fun q =>
        decide (q.position.x = position.x) && decide (q.position.y = position.y))).length
    decide (stack_height < max_stack_height)

/-- `WeightManager._check_weight_limits` (default `max_weight_per_stack = 1000`). -/
def check_weight_limits (max_weight_per_stack : ℚ) (placed : List PlacedItem)
    (item : Item) (position : Point3D) : Bool :=
  let total_weight := item.weight +
    ((placed.filter (fun q =>
        decide (q.position.x = position.x) && decide (q.position.y = position.y))).map
      (fun q => q.item.weight)).sum
  decide (total_weight ≤ max_weight_per_stack)

/-- `WeightManager.validate_placement`. -/
def validate_placement (max_stack_height : Nat) (max_weight_per_stack : ℚ)
    (placed : List PlacedItem) (item : Item) (position : Point3D) : Bool :=
  check_stack_height max_stack_height placed position &&
  check_weight_limits max_weight_per_stack placed item position

/-! ### Point frontier manager (`PointManager`) -/

/-- Insert `a` into `l` before the first element `b` with `le a b`. -/
def insert_sorted (le : α → α → Bool) (a : α) : List α → List α
  | [] => [a]
  | b :: bs => if le a b then a :: b :: bs else b :: insert_sorted le a bs

/-- Stable insertion sort.  Python's `list.sort`/`sorted` are stable, and
a stable sort with respect to a total preorder is unique, so this produces
exactly the list the Python sorts produce. -/
def stable_sort (le : α → α → Bool) : List α → List α
  | [] => []
  | a :: as => insert_sorted le a (stable_sort le as)

/-- State of a `PointManager`: the three point lists plus the priority
dictionary (an association list; the Python dict is keyed by the rounded
hash/equality of `Point3D`, so lookups and updates match under `req`). -/
structure PMState where
  available : List Point3D
  used : List Point3D
  blocked : List Point3D
  priorities : List (Point3D × Nat)
deriving DecidableEq, Repr

/-- `point_priorities.get(p, 999)`: dict lookup under rounded key equality,
defaulting to the 999 sentinel. -/
def prio_get (ps : List (Point3D × Nat)) (p : Point3D) : Nat :=
  match ps.find? (fun e => e.1.req p) with
  | some e => e.2
  | none => 999

/-- `point_priorities[p] = v`: dict update under rounded key equality
(replaces the value of an existing equal key, else appends a binding). -/
def prio_set (ps : List (Point3D × Nat)) (p : Point3D) (v : Nat) :
    List (Point3D × Nat) :=
  match ps with
  | [] => [(p, v)]
  | e :: rest => if e.1.req p then (e.1, v) :: rest else e :: prio_set rest p v

/-- `PointManager.add_point`.  The source guards only on membership in
`available_points` and `used_points` (NOT `blocked_points`). -/
def add_point (pm : PMState) (point : Point3D) (priority : Nat) : PMState :=
  if !mem3 point pm.available && !mem3 point pm.used then
    { pm with
      available := pm.available ++ [point]
      priorities := prio_set pm.priorities point priority }
  else pm

/-- The lexicographic scan key of `PointManager.get_next_point`:
`(round(x, 6), round(z, 6), round(y, 6), priority)`.  Note the source
rounds the coordinates to 6 decimals here, not 3. -/
def scan_key (ps : List (Point3D × Nat)) (p : Point3D) :
    Lex (ℚ × Lex (ℚ × Lex (ℚ × Nat))) :=
  toLex (roundTo 6 p.x, toLex (roundTo 6 p.z, toLex (roundTo 6 p.y, prio_get ps p)))

/-- Boolean comparison used to sort `available_points`. -/
def scan_le (ps : List (Point3D × Nat)) (p q : Point3D) : Bool :=
  decide (scan_key ps p ≤ scan_key ps q)

/-- The list `available_points` after the stable in-place sort performed
by `PointManager.get_next_point`. -/
def sorted_available (pm : PMState) : List Point3D :=
  stable_sort (scan_le pm.priorities) pm.available

/-- `PointManager.get_next_point`: sort, then return the first available
point, or none when the open set is empty. -/
def get_next_point (pm : PMState) : Option Point3D :=
  (sorted_available pm).head?

/-- `PointManager.mark_point_used`: remove the first `__eq__`-equal entry
from `available_points` (if any) and append to `used_points`. -/
def mark_point_used (pm : PMState) (point : Point3D) : PMState :=
  { pm with
    available := pm.available.eraseP (fun q => q.req point)
    used := pm.used ++ [point] }

/-- `PointManager.mark_point_blocked`. -/
def mark_point_blocked (pm : PMState) (point : Point3D) : PMState :=
  { pm with
    available := pm.available.eraseP (fun q => q.req point)
    blocked := pm.blocked ++ [point] }

/-- The candidate successor points of `PointManager.generate_new_points`,
in the source's order: the source builds `[width, length]` and, for a
`stackable` item, inserts the top point at index 1, giving
`[width, top, length]`. -/
def candidate_points (placed_item : PlacedItem) : List Point3D :=
  let x := placed_item.position.x
  let y := placed_item.position.y
  let z := placed_item.position.z
  let l := placed_item.rotation.l
  let w := placed_item.rotation.w
  let h := placed_item.rotation.h
  if placed_item.item.stackability = .stackable then
    [⟨x, y + w, z⟩, ⟨x, y, z + h⟩, ⟨x + l, y, z⟩]
  else
    [⟨x, y + w, z⟩, ⟨x + l, y, z⟩]

/-- `PointManager.generate_new_points`: keep the candidates not already
open, consumed, or blocked. -/
def generate_new_points (pm : PMState) (placed_item : PlacedItem) : List Point3D :=
  (candidate_points placed_item).filter (fun p =>
    !mem3 p pm.available && !mem3 p pm.used && !mem3 p pm.blocked)

/-! ### Orchestrator (`BinPackerV3`) -/

/-- State of a `BinPackerV3` instance: truck dimensions, the placed and
unplaced item lists, the point manager state, and the weight-manager
configuration.  The source keeps four copies of the placed-item list (the
orchestrator's own plus one in each of `CollisionDetector`,
`SupportValidator`, `WeightManager`); all four start empty and are
appended the same element at the same time, so they are modelled as the
single list `placed`. -/
structure PackState where
  truck_length : ℚ
  truck_width : ℚ
  truck_height : ℚ
  placed : List PlacedItem
  unplaced : List Item
  pm : PMState
  max_stack_height : Nat
  max_weight_per_stack : ℚ
deriving DecidableEq, Repr

/-- `BinPackerV3.__init__`: fresh empty state seeded with the origin point
at priority 0, default weight-manager configuration. -/
def init_state (truck_length truck_width truck_height : ℚ) : PackState :=
  { truck_length := truck_length
    truck_width := truck_width
    truck_height := truck_height
    placed := []
    unplaced := []
    pm := add_point ⟨[], [], [], []⟩ ⟨0, 0, 0⟩ 0
    max_stack_height := 3
    max_weight_per_stack := 1000 }

/-- The `stack_rank` dictionary of `BinPackerV3._sort_items_by_priority`
(with its default 2 for a missing key, which cannot occur). -/
def stack_rank : Stackability → Nat
  | .unstackable => 0
  | .stackable => 1
  | .semi_stackable => 2

/-- The sort key comparison of `_sort_items_by_priority`: Python compares
the tuples `(stack_rank, -volume, -weight, destination)` lexicographically. -/
def item_le (a b : Item) : Bool :=
  decide (toLex (stack_rank a.stackability,
                 toLex (-a.volume, toLex (-a.weight, a.destination))) ≤
          toLex (stack_rank b.stackability,
                 toLex (-b.volume, toLex (-b.weight, b.destination))))

/-- `BinPackerV3._sort_items_by_priority`. -/
def sort_items_by_priority (items : List Item) : List Item :=
  stable_sort item_le items

/-- `PlacementResult`. -/
structure PlacementResult where
  success : Bool
  reason : String := ""
  placed_item : Option PlacedItem := none
deriving DecidableEq, Repr

/-- `BinPackerV3._check_geometric_constraints` (its `item` argument is
never read by the source body). -/
def check_geometric_constraints (s : PackState) (point : Point3D) (rotation : Rot3) :
    Bool :=
  !(decide (point.x + rotation.l > s.truck_length) ||
    decide (point.y + rotation.w > s.truck_width) ||
    decide (point.z + rotation.h > s.truck_height) ||
    decide (point.x < 0) || decide (point.y < 0) || decide (point.z < 0))

/-- `BinPackerV3._attempt_placement`: the five checks in source order with
short-circuiting, reporting the reason of the first failing check. -/
def attempt_placement (s : PackState) (item : Item) (point : Point3D)
    (rotation : Rot3) : PlacementResult :=
  if item.stackability = .unstackable && !decide (point.z = 0) then
    { success := false, reason := "unstackable_must_be_floor" }
  else if !check_geometric_constraints s point rotation then
    { success := false, reason := "geometric_violation" }
  else if check_collision s.placed item point rotation then
    { success := false, reason := "collision" }
  else if !validate_support s.placed item point rotation then
    { success := false, reason := "insufficient_support" }
  else if !validate_placement s.max_stack_height s.max_weight_per_stack
            s.placed item point then
    { success := false, reason := "weight_violation" }
  else
    { success := true, placed_item := some ⟨item, point, rotation⟩ }

/-- `BinPackerV3._try_place_item_at_point`: first success over unplaced
items in backlog order, orientations in their fixed order. -/
def try_place_item_at_point (s : PackState) (point : Point3D) : Option PlacedItem :=
  s.unplaced.findSome? (fun item =>
    item.get_rotations.findSome? (fun rotation =>
      let r := attempt_placement s item point rotation
      if r.success then r.placed_item else none))

/-- `BinPackerV3._handle_successful_placement`: commit the placement,
consume the point, and add the generated successor points with priorities
1, 2, … in generation order. -/
def handle_successful_placement (s : PackState) (placed_item : PlacedItem)
    (point : Point3D) : PackState :=
  let pm1 := mark_point_used s.pm point
  let new_points := generate_new_points pm1 placed_item
  { s with
    placed := s.placed ++ [placed_item]
    unplaced := s.unplaced.erase placed_item.item
    pm := new_points.enum.foldl (fun pm ip => add_point pm ip.2 (ip.1 + 1)) pm1 }

/-- `BinPackerV3._handle_failed_placement`. -/
def handle_failed_placement (s : PackState) (point : Point3D) : PackState :=
  { s with pm := mark_point_blocked s.pm point }

/-- One iteration of the main packing loop body: pop the next point (the
source's `get_next_point` sorts `available_points` in place, so the state
keeps the sorted list), try to place, and commit or block. -/
def step_once (s : PackState) : PackState :=
  let s1 : PackState := { s with pm := { s.pm with available := sorted_available s.pm } }
  match get_next_point s.pm with
  | none => s
  | some point =>
    match try_place_item_at_point s1 point with
    | some placed_item => handle_successful_placement s1 placed_item point
    | none => handle_failed_placement s1 point

/-- The `while` loop of `BinPackerV3.pack_items`, with explicit fuel. -/
def pack_loop : Nat → PackState → PackState
  | 0, s => s
  | n + 1, s =>
    if s.pm.available.isEmpty || s.unplaced.isEmpty then s
    else pack_loop n (step_once s)

/-- Termination measure for the loop: every iteration removes one point
from the open set and adds at most three, and a successful iteration also
removes one backlog item. -/
def meas (s : PackState) : Nat := s.pm.available.length + 3 * s.unplaced.length

/-- The loop's exit condition (no open points or no unplaced items). -/
def is_done (s : PackState) : Prop := s.pm.available = [] ∨ s.unplaced = []

/-- The report assembled by `BinPackerV3._generate_packing_result`
(structured rather than serialized to dictionaries; same data). -/
structure Report where
  success : Bool
  placed_items : List PlacedItem
  unplaced_items : List Item
  efficiency : ℚ
  total_weight : ℚ
  truck_dimensions : ℚ × ℚ × ℚ
  items_placed : Nat
  items_unplaced : Nat
  total_items : Nat
deriving DecidableEq, Repr

/-- `BinPackerV3._generate_packing_result`. -/
def generate_packing_result (s : PackState) : Report :=
  let total_volume := s.truck_length * s.truck_width * s.truck_height
  let used_volume := (s.placed.map PlacedItem.volume).sum
  { success := true
    placed_items := s.placed
    unplaced_items := s.unplaced
    efficiency := if total_volume > 0 then roundTo 2 (used_volume / total_volume * 100) else 0
    total_weight := (s.placed.map (fun p => p.item.weight)).sum
    truck_dimensions := (s.truck_length, s.truck_width, s.truck_height)
    items_placed := s.placed.length
    items_unplaced := s.unplaced.length
    total_items := s.placed.length + s.unplaced.length }

/-- The packer state at the top of the main loop of `pack_items`: the
backlog is set to the sorted copy of the input (all other fields of the
instance are whatever they were when `pack_items` was called). -/
def pack_start (s : PackState) (items : List Item) : PackState :=
  { s with unplaced := sort_items_by_priority items }

/-- `BinPackerV3.pack_items` as a method: runs on the current instance
state `s` (which it mutates) and returns the report together with the
instance state after the call.  The fuel `meas` suffices for the loop to
reach its exit condition (proved below). -/
def pack_items (s : PackState) (items : List Item) : Report × PackState :=
  let s1 := pack_start s items
  let s2 := pack_loop (meas s1) s1
  (generate_packing_result s2, s2)

/-! ### Specification-side predicates (for comparison with the code) -/

/-- Pairwise collision freedom of a placed-item list: no two distinct
placed items' bounds overlap on all three axes simultaneously. -/
def no_overlap (l : List PlacedItem) : Prop :=
  l.Pairwise (fun a b => aabb_collision a.bounds b.bounds = false)

/-- A placed item lies within `[0, L] × [0, W] × [0, H]`. -/
def in_bounds (L W H : ℚ) (p : PlacedItem) : Prop :=
  0 ≤ p.position.x ∧ 0 ≤ p.position.y ∧ 0 ≤ p.position.z ∧
  p.position.x + p.rotation.l ≤ L ∧
  p.position.y + p.rotation.w ≤ W ∧
  p.position.z + p.rotation.h ≤ H

/-- The support acceptance condition as the specification words it, with
3-decimal tolerance-aware matching of top-face heights (to be compared
with the code's `validate_support`, which matches heights exactly). -/
def claimed_support_rounded (placed : List PlacedItem) (position : Point3D)
    (rotation : Rot3) : Bool :=
  if position.z = 0 then true
  else
    let surfaces := placed.filterMap (fun q =>
      if roundTo 3 (q.position.z + q.rotation.h) = roundTo 3 position.z then
        some (q.position,
              (⟨q.position.x + q.rotation.l, q.position.y + q.rotation.w,
                q.position.z + q.rotation.h⟩ : Point3D))
      else none)
    decide ((surfaces.map (calculate_intersection_area
        (position, ⟨position.x + rotation.l, position.y + rotation.w, position.z⟩))).sum /
      (rotation.l * rotation.w) * 100 ≥ 100)

/-- The support acceptance condition with exact top-face height matching:
floor placements accept trivially; otherwise some placed item's top face
must sit exactly at the candidate's base height, and the summed footprint
intersection with all such top faces must cover at least 100 percent of
the candidate's footprint area. -/
def support_spec_exact (placed : List PlacedItem) (position : Point3D)
    (rotation : Rot3) : Prop :=
  position.z = 0 ∨
  ((∃ q ∈ placed, q.position.z + q.rotation.h = position.z) ∧
   100 ≤ ((placed.filter (fun q => decide (q.position.z + q.rotation.h = position.z))).map
      (fun q => calculate_intersection_area
        (position, ⟨position.x + rotation.l, position.y + rotation.w, position.z⟩)
        (q.position,
         ⟨q.position.x + q.rotation.l, q.position.y + q.rotation.w,
          q.position.z + q.rotation.h⟩))).sum /
     (rotation.l * rotation.w) * 100)

/-- Number of already-placed items whose origin matches the candidate's
`(x, y)` exactly (the "column" of the weight/stack manager). -/
def column_count (placed : List PlacedItem) (position : Point3D) : Nat :=
  (placed.filter (fun q =>
    decide (q.position.x = position.x) && decide (q.position.y = position.y))).length

/-- Total weight of the already-placed items in the candidate's column. -/
def column_weight (placed : List PlacedItem) (position : Point3D) : ℚ :=
  ((placed.filter (fun q =>
      decide (q.position.x = position.x) && decide (q.position.y = position.y))).map
    (fun q => q.item.weight)).sum

/-- The scan key as the specification words it: all axes rounded to the
shared 3-decimal tolerance (the code uses 6 decimals). -/
def scan_key3 (ps : List (Point3D × Nat)) (p : Point3D) :
    Lex (ℚ × Lex (ℚ × Lex (ℚ × Nat))) :=
  toLex (roundTo 3 p.x, toLex (roundTo 3 p.z, toLex (roundTo 3 p.y, prio_get ps p)))

/-- The specification's description of `next()`: `p` is the unique open
point with strictly lowest 3-decimal-rounded scan key. -/
def claimed_next (pm : PMState) (p : Point3D) : Prop :=
  p ∈ pm.available ∧
  ∀ q ∈ pm.available, q ≠ p →
    scan_key3 pm.priorities p < scan_key3 pm.priorities q

/-- The claim's five placement checks as one conjunction (the code
evaluates them in sequence with short-circuiting). -/
def passes_all_checks (s : PackState) (item : Item) (point : Point3D)
    (rot : Rot3) : Bool :=
  !(decide (item.stackability = .unstackable) && !decide (point.z = 0)) &&
  check_geometric_constraints s point rot &&
  !check_collision s.placed item point rot &&
  validate_support s.placed item point rot &&
  validate_placement s.max_stack_height s.max_weight_per_stack s.placed item point

/-- The first (item, orientation) pair, in backlog order with orientations
in their fixed order, that passes all five checks. -/
def first_passing_pair (s : PackState) (point : Point3D) : Option (Item × Rot3) :=
  (s.unplaced.flatMap (fun it => it.get_rotations.map (fun r => (it, r)))).find?
    (fun pr => passes_all_checks s pr.1 point pr.2)

/-- Adding a list of points with consecutive ascending priorities starting
at `k` (the claim's "priorities 1..k in generation order" is the call with
starting index 1). -/
def add_points_seq : PMState → List Point3D → Nat → PMState
  | pm, [], _ => pm
  | pm, p :: ps, k => add_points_seq (add_point pm p k) ps (k + 1)

/-- Everything claim C3 asserts about one popped frontier point `point`:
check order and first-failure reasons, first-fit commit, and blocking. -/
def placement_step_spec (s : PackState) (point : Point3D) : Prop :=
  let s1 : PackState := { s with pm := { s.pm with available := sorted_available s.pm } }
  (∀ item rot,
    ((attempt_placement s1 item point rot).success = true ↔
      passes_all_checks s1 item point rot = true) ∧
    ((attempt_placement s1 item point rot).success = true →
      (attempt_placement s1 item point rot).placed_item =
        some ⟨item, point, rot⟩) ∧
    (item.stackability = .unstackable ∧ point.z ≠ 0 →
      (attempt_placement s1 item point rot).reason = "unstackable_must_be_floor") ∧
    (¬(item.stackability = .unstackable ∧ point.z ≠ 0) →
      check_geometric_constraints s1 point rot = false →
      (attempt_placement s1 item point rot).reason = "geometric_violation") ∧
    (¬(item.stackability = .unstackable ∧ point.z ≠ 0) →
      check_geometric_constraints s1 point rot = true →
      check_collision s1.placed item point rot = true →
      (attempt_placement s1 item point rot).reason = "collision") ∧
    (¬(item.stackability = .unstackable ∧ point.z ≠ 0) →
      check_geometric_constraints s1 point rot = true →
      check_collision s1.placed item point rot = false →
      validate_support s1.placed item point rot = false →
      (attempt_placement s1 item point rot).reason = "insufficient_support") ∧
    (¬(item.stackability = .unstackable ∧ point.z ≠ 0) →
      check_geometric_constraints s1 point rot = true →
      check_collision s1.placed item point rot = false →
      validate_support s1.placed item point rot = true →
      validate_placement s1.max_stack_height s1.max_weight_per_stack
        s1.placed item point = false →
      (attempt_placement s1 item point rot).reason = "weight_violation")) ∧
  try_place_item_at_point s1 point =
    (first_passing_pair s1 point).map (fun pr => (⟨pr.1, point, pr.2⟩ : PlacedItem)) ∧
  (∀ pi, try_place_item_at_point s1 point = some pi →
    step_once s = { s1 with
      placed := s1.placed ++ [pi]
      unplaced := s1.unplaced.erase pi.item
      pm := add_points_seq (mark_point_used s1.pm point)
              (generate_new_points (mark_point_used s1.pm point) pi) 1 }) ∧
  (try_place_item_at_point s1 point = none →
    step_once s = { s1 with pm := mark_point_blocked s1.pm point })

/-! ### Concrete fixtures used by counterexamples and witnesses -/

/-- A unit box item. -/
def unit_box : Item :=
  { id := "a", length := 1, width := 1, height := 1, weight := 5 }

/-- One unit box placed at the origin. -/
def one_placed : List PlacedItem := [⟨unit_box, ⟨0, 0, 0⟩, ⟨1, 1, 1⟩⟩]

/-- A frontier state with two open points whose 3-decimal and 6-decimal
scan orders disagree.  They are not equal under the 3-decimal point
equality (their y differ by 1), so both can be open simultaneously. -/
def c6_state : PMState :=
  ⟨[⟨4 / 10000, 0, 0⟩, ⟨1 / 10000, 1, 0⟩], [], [], []⟩

/-- A frontier state whose only trace of the point `(1,2,3)` is in the
blocked list. -/
def c7_state : PMState := ⟨[], [], [⟨1, 2, 3⟩], []⟩

/-! ### Helper lemmas -/

theorem bool_eq_of_iff {a b : Bool} (h : a = true ↔ b = true) : a = b := by
  cases a <;> cases b <;> simp_all

theorem req_refl (p : Point3D) : p.req p = true := by
  unfold Point3D.req; simp

theorem qmax_zero_nonneg (x : ℚ) : 0 ≤ qmax 0 x := by
  unfold qmax; split
  · assumption
  · exact le_refl 0

/-- Rectangle intersection areas are never negative. -/
theorem intersection_area_nonneg (b1 b2 : Point3D × Point3D) :
    0 ≤ calculate_intersection_area b1 b2 :=
  mul_nonneg (qmax_zero_nonneg _) (qmax_zero_nonneg _)

theorem filterMap_if_eq {α β : Type} (pr : α → Prop) [DecidablePred pr] (f : α → β)
    (l : List α) :
    (l.filterMap (fun a => if pr a then some (f a) else none)) =
      (l.filter (fun a => decide (pr a))).map f := by
  induction l with
  | nil => rfl
  | cons a t ih => by_cases h : pr a <;> simp [List.filterMap_cons, List.filter_cons, h, ih]

/-- `get_support_surface` is the filter of exactly-matching placed items,
mapped to their bounds. -/
theorem get_support_surface_eq (placed : List PlacedItem) (height : ℚ) :
    get_support_surface placed height =
      (placed.filter (fun q => decide (q.position.z + q.rotation.h = height))).map
        (fun q => (q.position,
          (⟨q.position.x + q.rotation.l, q.position.y + q.rotation.w,
            q.position.z + q.rotation.h⟩ : Point3D))) := by
  simpa [get_support_surface] using
    filterMap_if_eq (fun q : PlacedItem => q.position.z + q.rotation.h = height)
      (fun q : PlacedItem => (q.position,
        (⟨q.position.x + q.rotation.l, q.position.y + q.rotation.w,
          q.position.z + q.rotation.h⟩ : Point3D))) placed

theorem insert_sorted_perm (le : α → α → Bool) (a : α) (l : List α) :
    (insert_sorted le a l).Perm (a :: l) := by
  induction l with
  | nil => exact List.Perm.refl _
  | cons b bs ih =>
      unfold insert_sorted; split
      · exact List.Perm.refl _
      · exact ((ih.cons b).trans (List.Perm.swap a b bs))

theorem stable_sort_perm (le : α → α → Bool) (l : List α) :
    (stable_sort le l).Perm l := by
  induction l with
  | nil => exact List.Perm.refl _
  | cons a as ih =>
      exact (insert_sorted_perm le a (stable_sort le as)).trans (ih.cons a)

theorem insert_sorted_pairwise (le : α → α → Bool)
    (htrans : ∀ a b c, le a b = true → le b c = true → le a c = true)
    (htotal : ∀ a b, le a b = true ∨ le b a = true)
    (a : α) (l : List α) (h : l.Pairwise (fun x y => le x y = true)) :
    (insert_sorted le a l).Pairwise (fun x y => le x y = true) := by
  induction l with
  | nil => simp [insert_sorted]
  | cons b bs ih =>
      rcases List.pairwise_cons.mp h with ⟨hb, hbs⟩
      unfold insert_sorted; split
      · rename_i hab
        refine List.pairwise_cons.mpr ⟨?_, h⟩
        intro x hx
        rcases List.mem_cons.mp hx with rfl | hx
        · exact hab
        · exact htrans a b x hab (hb x hx)
      · rename_i hab
        have hba : le b a = true := by
          rcases htotal a b with hc | hc
          · exact absurd hc hab
          · exact hc
        refine List.pairwise_cons.mpr ⟨?_, ih hbs⟩
        intro x hx
        have hx' : x ∈ a :: bs := (insert_sorted_perm le a bs).mem_iff.mp hx
        rcases List.mem_cons.mp hx' with rfl | hx'
        · exact hba
        · exact hb x hx'

theorem stable_sort_pairwise (le : α → α → Bool)
    (htrans : ∀ a b c, le a b = true → le b c = true → le a c = true)
    (htotal : ∀ a b, le a b = true ∨ le b a = true)
    (l : List α) :
    (stable_sort le l).Pairwise (fun x y => le x y = true) := by
  induction l with
  | nil => simp [stable_sort]
  | cons a as ih => exact insert_sorted_pairwise le htrans htotal a _ ih

theorem stable_sort_head_min (le : α → α → Bool)
    (htrans : ∀ a b c, le a b = true → le b c = true → le a c = true)
    (htotal : ∀ a b, le a b = true ∨ le b a = true)
    (l : List α) (x : α) (hx : (stable_sort le l).head? = some x) :
    x ∈ l ∧ ∀ q ∈ l, le x q = true := by
  rcases hs : stable_sort le l with - | ⟨y, t⟩
  · rw [hs] at hx; exact absurd hx (by simp)
  · rw [hs] at hx
    have hxy : y = x := by simpa using hx
    subst hxy
    have hperm := stable_sort_perm le l
    rw [hs] at hperm
    have hsorted := stable_sort_pairwise le htrans htotal l
    rw [hs] at hsorted
    rcases List.pairwise_cons.mp hsorted with ⟨hhead, -⟩
    refine ⟨hperm.mem_iff.mp (List.mem_cons_self y t), ?_⟩
    intro q hq
    rcases List.mem_cons.mp (hperm.mem_iff.mpr hq) with rfl | hq'
    · rcases htotal q q with hc | hc <;> exact hc
    · exact hhead q hq'

theorem scan_le_trans (ps : List (Point3D × Nat)) :
    ∀ a b c, scan_le ps a b = true → scan_le ps b c = true → scan_le ps a c = true := by
  intro a b c
  simp only [scan_le, decide_eq_true_eq]
  exact le_trans

theorem scan_le_total (ps : List (Point3D × Nat)) :
    ∀ a b, scan_le ps a b = true ∨ scan_le ps b a = true := by
  intro a b
  simp only [scan_le, decide_eq_true_eq]
  exact le_total _ _

/-! ### Claim theorems: weight manager, frontier add, support, frontier next -/

/-- C9: the weight/stack manager approves a candidate iff (a) the
candidate is on the floor or its exact-origin column has fewer items than
the maximum stack height, and (b) the column's weight plus the candidate's
weight stays within the maximum weight per stack.  Column membership is
exact origin-coordinate matching. -/
theorem weight_stack_validation_iff :
    ∀ (max_stack_height : Nat) (max_weight_per_stack : ℚ)
      (placed : List PlacedItem) (item : Item) (position : Point3D),
      validate_placement max_stack_height max_weight_per_stack placed item position = true ↔
        ((position.z = 0 ∨ column_count placed position < max_stack_height) ∧
         column_weight placed position + item.weight ≤ max_weight_per_stack) := by
  intro maxS maxW placed item pos
  unfold validate_placement check_stack_height check_weight_limits column_count column_weight
  by_cases hz : pos.z = 0 <;> simp [hz, add_comm]

section RatEval

attribute [local semireducible] Rat.mul Rat.add Rat.inv Rat.sub

/-- C7 (counterexample): `add_point` re-inserts a point that is present
only in the blocked list, contradicting the claim that a blocked point is
never re-inserted. -/
theorem add_point_blocked_counterexample :
    mem3 ⟨1, 2, 3⟩ c7_state.blocked = true ∧
    (add_point c7_state ⟨1, 2, 3⟩ 5).available = [⟨1, 2, 3⟩] := by decide

/-- C7 (amended): `add_point` inserts the point iff it is neither already
open nor already consumed — blocked membership is not consulted, the
callers filter blocked candidates before calling — and it never touches
the used or blocked lists. -/
theorem add_point_characterization :
    ∀ (pm : PMState) (p : Point3D) (pr : Nat),
      ((add_point pm p pr).available =
        if mem3 p pm.available = false ∧ mem3 p pm.used = false
        then pm.available ++ [p] else pm.available) ∧
      (add_point pm p pr).used = pm.used ∧
      (add_point pm p pr).blocked = pm.blocked ∧
      ((add_point pm p pr).available.length = pm.available.length + 1 ↔
        (mem3 p pm.available = false ∧ mem3 p pm.used = false)) := by
  intro pm p pr
  unfold add_point
  cases hA : mem3 p pm.available <;> cases hU : mem3 p pm.used <;> simp [hA, hU]

/-- C2 (counterexample): a candidate resting 1/10000 above a placed box's
top face.  The two heights agree after 3-decimal rounding, so the claimed
tolerance-aware matching accepts with full coverage, but the code's exact
height matching finds no support surface and rejects. -/
theorem support_rounding_counterexample :
    validate_support one_placed unit_box ⟨0, 0, 1 + 1 / 10000⟩ ⟨1, 1, 1⟩ = false ∧
    claimed_support_rounded one_placed ⟨0, 0, 1 + 1 / 10000⟩ ⟨1, 1, 1⟩ = true := by
  decide

/-- C6 (counterexample): a frontier on which the claimed 3-decimal scan
order and the code's actual 6-decimal scan order pick different points.
Under 3-decimal rounding both points' x round to 0 and the first point
wins on the y tie-break; the code's 6-decimal key sees the second point's
smaller raw x and returns it instead. -/
theorem next_point_rounding_counterexample :
    claimed_next c6_state ⟨4 / 10000, 0, 0⟩ ∧
    get_next_point c6_state = some ⟨1 / 10000, 1, 0⟩ ∧
    (⟨1 / 10000, 1, 0⟩ : Point3D) ≠ ⟨4 / 10000, 0, 0⟩ := by
  refine ⟨?_, by decide, by decide⟩
  unfold claimed_next
  decide

end RatEval

/-- C6 (amended): whenever open points exist, `next()` returns an open
point whose scan key — all axes rounded to 6 decimals (not 3), with the
999 sentinel for an unset priority — is minimal among all open points; it
returns none iff no open points remain. -/
theorem next_point_is_min_scan_key :
    ∀ pm : PMState,
      (get_next_point pm = none ↔ pm.available = []) ∧
      ∀ p, get_next_point pm = some p →
        p ∈ pm.available ∧
        ∀ q ∈ pm.available, scan_key pm.priorities p ≤ scan_key pm.priorities q := by
  intro pm
  constructor
  · unfold get_next_point sorted_available
    rw [List.head?_eq_none_iff]
    constructor
    · intro h
      have := stable_sort_perm (scan_le pm.priorities) pm.available
      rw [h] at this
      exact this.symm.eq_nil
    · intro h; rw [h]; rfl
  · intro p hp
    have hmin := stable_sort_head_min (scan_le pm.priorities)
      (scan_le_trans pm.priorities) (scan_le_total pm.priorities) pm.available p hp
    refine ⟨hmin.1, fun q hq => ?_⟩
    have := hmin.2 q hq
    simpa [scan_le] using this

section RatEval

attribute [local semireducible] Rat.mul Rat.add Rat.inv Rat.sub

/-- Witness for the amended C6 at the concrete two-point frontier. -/
theorem next_point_is_min_scan_key_witness :
    get_next_point c6_state = some ⟨1 / 10000, 1, 0⟩ ∧
    ((⟨1 / 10000, 1, 0⟩ : Point3D) ∈ c6_state.available ∧
     ∀ q ∈ c6_state.available,
       scan_key c6_state.priorities ⟨1 / 10000, 1, 0⟩ ≤ scan_key c6_state.priorities q) :=
  ⟨by decide, (next_point_is_min_scan_key c6_state).2 ⟨1 / 10000, 1, 0⟩ (by decide)⟩

end RatEval

/-- C2 (amended): the support validator accepts iff the candidate is on
the floor, or some placed item's top face sits exactly (raw equality, no
rounding) at the candidate's base height and the summed footprint
intersection with all exactly-matching top faces covers at least 100
percent of the candidate's footprint area. -/
theorem support_validator_exact_iff :
    ∀ (placed : List PlacedItem) (item : Item) (position : Point3D) (rotation : Rot3),
      validate_support placed item position rotation = true ↔
        support_spec_exact placed position rotation := by
  intro placed item pos rot
  by_cases hz : pos.z = 0
  · simp [validate_support, support_spec_exact, hz]
  · unfold validate_support support_spec_exact calculate_support_percentage
    rw [if_neg hz, get_support_surface_eq placed pos.z]
    simp only [hz, false_or]
    set l := placed.filter (fun q => decide (q.position.z + q.rotation.h = pos.z)) with hl
    set F : PlacedItem → ℚ := fun q => calculate_intersection_area
        (pos, ⟨pos.x + rot.l, pos.y + rot.w, pos.z⟩)
        (q.position, ⟨q.position.x + q.rotation.l, q.position.y + q.rotation.w,
          q.position.z + q.rotation.h⟩) with hF
    have hmm : ((l.map (fun q => (q.position,
        (⟨q.position.x + q.rotation.l, q.position.y + q.rotation.w,
          q.position.z + q.rotation.h⟩ : Point3D)))).map
        (fun s => calculate_intersection_area
          (pos, ⟨pos.x + rot.l, pos.y + rot.w, pos.z⟩) s)) = l.map F := by
      rw [List.map_map]; rfl
    have hex : (∃ q ∈ placed, q.position.z + q.rotation.h = pos.z) ↔ l ≠ [] := by
      rw [hl]
      constructor
      · rintro ⟨q, hq, he⟩ h0
        have hq' : q ∈ placed.filter
            (fun q => decide (q.position.z + q.rotation.h = pos.z)) :=
          List.mem_filter.mpr ⟨hq, by simpa using he⟩
        rw [h0] at hq'
        simp at hq'
      · intro hne
        rcases List.exists_mem_of_ne_nil _ hne with ⟨q, hq⟩
        rcases List.mem_filter.mp hq with ⟨h1, h2⟩
        exact ⟨q, h1, by simpa using h2⟩
    by_cases hln : l = []
    · simp [hln, hex]
    · have hie : ((l.map (fun q => (q.position,
          (⟨q.position.x + q.rotation.l, q.position.y + q.rotation.w,
            q.position.z + q.rotation.h⟩ : Point3D)))).isEmpty) = false := by
        rcases l with - | ⟨a, t⟩
        · exact absurd rfl hln
        · rfl
      rw [hie]
      by_cases ha : rot.l * rot.w > 0
      · simp [ha, hmm, hln, hex, ge_iff_le]
      · have hS : 0 ≤ (l.map F).sum := by
          apply List.sum_nonneg
          intro x hx
          rcases List.mem_map.mp hx with ⟨q, -, rfl⟩
          exact intersection_area_nonneg _ _
        have hfalse : ¬(100 ≤ (l.map F).sum / (rot.l * rot.w) * 100) := by
          rcases lt_or_eq_of_le (le_of_not_lt ha) with hlt | heq
          · intro hcon
            have hdiv : (l.map F).sum / (rot.l * rot.w) ≤ 0 :=
              div_nonpos_of_nonneg_of_nonpos hS (le_of_lt hlt)
            nlinarith
          · rw [heq, div_zero, zero_mul]
            norm_num
        simp [ha, hmm, hln, hex, hfalse, ge_iff_le]

/-! ### Orchestrator helper lemmas -/

theorem aabb_collision_comm (b1 b2 : Point3D × Point3D) :
    aabb_collision b1 b2 = aabb_collision b2 b1 := by
  apply bool_eq_of_iff
  unfold aabb_collision
  simp only [Bool.not_eq_true', Bool.or_eq_false_iff, decide_eq_false_iff_not, not_le,
    ge_iff_le]
  tauto

theorem check_collision_eq_false {placed : List PlacedItem} {item : Item}
    {position : Point3D} {rot : Rot3}
    (h : check_collision placed item position rot = false) :
    ∀ q ∈ placed, aabb_collision (PlacedItem.bounds ⟨item, position, rot⟩) q.bounds = false := by
  unfold check_collision at h
  intro q hq
  have := List.any_eq_false.mp h q hq
  simpa using this

theorem attempt_placement_cases (s : PackState) (item : Item) (point : Point3D)
    (rot : Rot3) :
    (attempt_placement s item point rot) =
      { success := true, reason := "", placed_item := some ⟨item, point, rot⟩ } ∨
    ((attempt_placement s item point rot).success = false ∧
     (attempt_placement s item point rot).placed_item = none) := by
  unfold attempt_placement
  split_ifs <;> simp

theorem attempt_placement_success_iff (s : PackState) (item : Item) (point : Point3D)
    (rot : Rot3) :
    (attempt_placement s item point rot).success = true ↔
      passes_all_checks s item point rot = true := by
  unfold attempt_placement passes_all_checks
  split_ifs <;> simp_all <;> tauto

theorem attempt_success_checks {s : PackState} {item : Item} {point : Point3D}
    {rot : Rot3} (h : (attempt_placement s item point rot).success = true) :
    check_geometric_constraints s point rot = true ∧
    check_collision s.placed item point rot = false ∧
    validate_support s.placed item point rot = true ∧
    validate_placement s.max_stack_height s.max_weight_per_stack s.placed item point
      = true := by
  unfold attempt_placement at h
  split_ifs at h <;> simp_all

theorem try_place_some_spec (s : PackState) (point : Point3D) (pi : PlacedItem)
    (h : try_place_item_at_point s point = some pi) :
    pi.item ∈ s.unplaced ∧ pi.position = point ∧
    (attempt_placement s pi.item point pi.rotation).success = true := by
  unfold try_place_item_at_point at h
  rcases List.exists_of_findSome?_eq_some h with ⟨it, hit, hinner⟩
  rcases List.exists_of_findSome?_eq_some hinner with ⟨rot, hrot, hres⟩
  rcases attempt_placement_cases s it point rot with hcase | hcase
  · have hpi : pi = ⟨it, point, rot⟩ := by
      rw [hcase] at hres
      simpa using hres.symm
    subst hpi
    exact ⟨hit, rfl, by rw [hcase]⟩
  · simp [hcase.1, hcase.2] at hres

theorem step_once_of_none {s : PackState} (h : get_next_point s.pm = none) :
    step_once s = s := by
  unfold step_once
  simp only [h]

theorem step_once_of_some_fail {s : PackState} {point : Point3D}
    (hg : get_next_point s.pm = some point)
    (ht : try_place_item_at_point
      { s with pm := { s.pm with available := sorted_available s.pm } } point = none) :
    step_once s = handle_failed_placement
      { s with pm := { s.pm with available := sorted_available s.pm } } point := by
  unfold step_once
  simp only [hg, ht]

theorem step_once_of_some_success {s : PackState} {point : Point3D} {pi : PlacedItem}
    (hg : get_next_point s.pm = some point)
    (ht : try_place_item_at_point
      { s with pm := { s.pm with available := sorted_available s.pm } } point = some pi) :
    step_once s = handle_successful_placement
      { s with pm := { s.pm with available := sorted_available s.pm } } pi point := by
  unfold step_once
  simp only [hg, ht]

theorem pack_loop_invariant (P : PackState → Prop)
    (hstep : ∀ s, P s → P (step_once s)) :
    ∀ (n : Nat) (s : PackState), P s → P (pack_loop n s) := by
  intro n
  induction n with
  | zero => intro s h; exact h
  | succ n ih =>
      intro s h
      unfold pack_loop
      split
      · exact h
      · exact ih _ (hstep _ h)

theorem no_overlap_step (s : PackState) (h : no_overlap s.placed) :
    no_overlap (step_once s).placed := by
  cases hg : get_next_point s.pm with
  | none => rw [step_once_of_none hg]; exact h
  | some point =>
      cases ht : try_place_item_at_point
          { s with pm := { s.pm with available := sorted_available s.pm } } point with
      | none =>
          rw [step_once_of_some_fail hg ht]
          exact h
      | some pi =>
          rw [step_once_of_some_success hg ht]
          obtain ⟨hmem, hpos, hsucc⟩ := try_place_some_spec _ _ _ ht
          obtain ⟨-, hcoll, -, -⟩ := attempt_success_checks hsucc
          have hall := check_collision_eq_false hcoll
          unfold handle_successful_placement no_overlap
          rw [List.pairwise_append]
          refine ⟨h, List.pairwise_singleton _ _, ?_⟩
          intro a ha b hb
          have hbpi : b = pi := by simpa using hb
          rw [hbpi]
          have hpieq : (⟨pi.item, point, pi.rotation⟩ : PlacedItem) = pi := by
            cases pi
            cases hpos
            rfl
          have hone := hall a ha
          rw [hpieq] at hone
          rw [aabb_collision_comm]
          exact hone

/-- C1: after every step of a packing run, no two placed items overlap on
all three axes simultaneously (boundary-touching does not count). -/
theorem collision_invariant_holds :
    ∀ (L W H : ℚ) (items : List Item) (n : Nat),
      no_overlap ((pack_loop n (pack_start (init_state L W H) items)).placed) := by
  intro L W H items n
  exact pack_loop_invariant (fun s => no_overlap s.placed) no_overlap_step n _
    List.Pairwise.nil

theorem geo_check_in_bounds {s : PackState} (item : Item) {point : Point3D} {rot : Rot3}
    (h : check_geometric_constraints s point rot = true) :
    in_bounds s.truck_length s.truck_width s.truck_height ⟨item, point, rot⟩ := by
  unfold check_geometric_constraints at h
  unfold in_bounds
  simp only [Bool.not_eq_true', Bool.or_eq_false_iff, decide_eq_false_iff_not, not_lt] at h
  tauto

theorem in_bounds_step (L W H : ℚ) (s : PackState)
    (h : s.truck_length = L ∧ s.truck_width = W ∧ s.truck_height = H ∧
         s.placed.Forall (in_bounds L W H)) :
    (step_once s).truck_length = L ∧ (step_once s).truck_width = W ∧
    (step_once s).truck_height = H ∧
    (step_once s).placed.Forall (in_bounds L W H) := by
  obtain ⟨h1, h2, h3, hall⟩ := h
  cases hg : get_next_point s.pm with
  | none => rw [step_once_of_none hg]; exact ⟨h1, h2, h3, hall⟩
  | some point =>
      cases ht : try_place_item_at_point
          { s with pm := { s.pm with available := sorted_available s.pm } } point with
      | none =>
          rw [step_once_of_some_fail hg ht]
          exact ⟨h1, h2, h3, hall⟩
      | some pi =>
          rw [step_once_of_some_success hg ht]
          obtain ⟨hmem, hpos, hsucc⟩ := try_place_some_spec _ _ _ ht
          obtain ⟨hgeo, -, -, -⟩ := attempt_success_checks hsucc
          refine ⟨h1, h2, h3, ?_⟩
          unfold handle_successful_placement
          rw [List.forall_iff_forall_mem]
          intro q hq
          rcases List.mem_append.mp hq with hq | hq
          · exact (List.forall_iff_forall_mem.mp hall) q hq
          · have hqpi : q = pi := by simpa using hq
            subst hqpi
            have hpieq : (⟨q.item, point, q.rotation⟩ : PlacedItem) = q := by
              cases q
              cases hpos
              rfl
            have := geo_check_in_bounds q.item hgeo
            rw [hpieq] at this
            rw [← h1, ← h2, ← h3]
            exact this

/-- C8: after every step of a packing run, every placed item lies within
`[0, truck_length] × [0, truck_width] × [0, truck_height]`. -/
theorem bounds_invariant_holds :
    ∀ (L W H : ℚ) (items : List Item) (n : Nat),
      ((pack_loop n (pack_start (init_state L W H) items)).placed).Forall
        (in_bounds L W H) := by
  intro L W H items n
  have := pack_loop_invariant
    (fun s => s.truck_length = L ∧ s.truck_width = W ∧ s.truck_height = H ∧
      s.placed.Forall (in_bounds L W H))
    (in_bounds_step L W H) n (pack_start (init_state L W H) items)
    ⟨rfl, rfl, rfl, trivial⟩
  exact this.2.2.2

theorem conservation_step (items : List Item) (s : PackState)
    (h : ((s.placed.map PlacedItem.item) ++ s.unplaced).Perm items) :
    (((step_once s).placed.map PlacedItem.item) ++ (step_once s).unplaced).Perm items := by
  cases hg : get_next_point s.pm with
  | none => rw [step_once_of_none hg]; exact h
  | some point =>
      cases ht : try_place_item_at_point
          { s with pm := { s.pm with available := sorted_available s.pm } } point with
      | none =>
          rw [step_once_of_some_fail hg ht]
          exact h
      | some pi =>
          rw [step_once_of_some_success hg ht]
          obtain ⟨hmem, -, -⟩ := try_place_some_spec _ _ _ ht
          unfold handle_successful_placement
          refine List.Perm.trans ?_ h
          rw [List.map_append]
          have hassoc :
              (s.placed.map PlacedItem.item ++ [pi.item]) ++ s.unplaced.erase pi.item =
              s.placed.map PlacedItem.item ++ (pi.item :: s.unplaced.erase pi.item) := by
            rw [List.append_assoc]
            rfl
          rw [show ([pi] : List PlacedItem).map PlacedItem.item = [pi.item] from rfl]
          rw [hassoc]
          exact List.Perm.append_left _ (List.perm_cons_erase hmem).symm

/-- C10: the packer works on a sorted copy of the input as its backlog
(the initial backlog is the priority sort of the input, a permutation of
it), and throughout the run the placed and unplaced items together remain
exactly the input items — nothing is added, dropped, or modified. -/
theorem pack_preserves_input_items :
    ∀ (L W H : ℚ) (items : List Item) (n : Nat),
      (pack_start (init_state L W H) items).unplaced = sort_items_by_priority items ∧
      (sort_items_by_priority items).Perm items ∧
      (((pack_loop n (pack_start (init_state L W H) items)).placed.map PlacedItem.item) ++
        (pack_loop n (pack_start (init_state L W H) items)).unplaced).Perm items := by
  intro L W H items n
  refine ⟨rfl, stable_sort_perm item_le items, ?_⟩
  exact pack_loop_invariant
    (fun s => ((s.placed.map PlacedItem.item) ++ s.unplaced).Perm items)
    (conservation_step items) n (pack_start (init_state L W H) items)
    (stable_sort_perm item_le items)

/-! ### Termination of the packing loop -/

theorem add_point_available_length (pm : PMState) (p : Point3D) (pr : Nat) :
    (add_point pm p pr).available.length ≤ pm.available.length + 1 := by
  unfold add_point
  split
  · simp
  · exact Nat.le_succ _

theorem foldl_add_points_length (l : List (Nat × Point3D)) :
    ∀ pm : PMState,
      ((l.foldl (fun pm ip => add_point pm ip.2 (ip.1 + 1)) pm).available.length ≤
        pm.available.length + l.length) := by
  induction l with
  | nil => intro pm; simp
  | cons a t ih =>
      intro pm
      have h1 := ih (add_point pm a.2 (a.1 + 1))
      have h2 := add_point_available_length pm a.2 (a.1 + 1)
      simp only [List.foldl_cons, List.length_cons]
      omega

theorem generate_new_points_length (pm : PMState) (pi : PlacedItem) :
    (generate_new_points pm pi).length ≤ 3 := by
  unfold generate_new_points candidate_points
  split
  · exact le_trans (List.length_filter_le _ _) (by norm_num)
  · exact le_trans (List.length_filter_le _ _) (by norm_num)

theorem sorted_available_cons_of_ne_nil (pm : PMState) (h : pm.available ≠ []) :
    ∃ p t, sorted_available pm = p :: t := by
  rcases hs : sorted_available pm with - | ⟨p, t⟩
  · have hperm := stable_sort_perm (scan_le pm.priorities) pm.available
    unfold sorted_available at hs
    rw [hs] at hperm
    exact absurd hperm.symm.eq_nil h
  · exact ⟨p, t, rfl⟩

theorem meas_step_lt (s : PackState) (ha : s.pm.available ≠ []) (hu : s.unplaced ≠ []) :
    meas (step_once s) < meas s := by
  obtain ⟨p, t, hpt⟩ := sorted_available_cons_of_ne_nil s.pm ha
  have hg : get_next_point s.pm = some p := by
    unfold get_next_point
    rw [hpt]
    rfl
  have hlen : (sorted_available s.pm).length = s.pm.available.length :=
    (stable_sort_perm _ _).length_eq
  rw [hpt] at hlen
  have havail : 1 ≤ s.pm.available.length := by
    simp only [List.length_cons] at hlen
    omega
  have hunp : 1 ≤ s.unplaced.length := by
    cases hc : s.unplaced with
    | nil => exact absurd hc hu
    | cons a l => simp
  have herase : (p :: t).eraseP (fun q => q.req p) = t :=
    List.eraseP_cons_of_pos (req_refl p)
  cases ht : try_place_item_at_point
      { s with pm := { s.pm with available := sorted_available s.pm } } p with
  | none =>
      rw [step_once_of_some_fail hg ht]
      unfold handle_failed_placement mark_point_blocked meas
      simp only [hpt, herase]
      simp only [List.length_cons] at hlen
      omega
  | some pi =>
      rw [step_once_of_some_success hg ht]
      obtain ⟨hmem, -, -⟩ := try_place_some_spec _ _ _ ht
      unfold handle_successful_placement meas
      have hel : (s.unplaced.erase pi.item).length = s.unplaced.length - 1 :=
        List.length_erase_of_mem hmem
      set pm1 := mark_point_used
        { s with pm := { s.pm with available := sorted_available s.pm } }.pm p with hpm1
      have hm1 : pm1.available = t := by
        rw [hpm1]
        unfold mark_point_used
        simp only [hpt, herase]
      have hnp := generate_new_points_length pm1 pi
      have hfold := foldl_add_points_length ((generate_new_points pm1 pi).enum) pm1
      rw [List.enum_length, hm1] at hfold
      simp only [List.length_append, List.length_cons] at *
      omega

theorem pack_loop_done_of_fuel :
    ∀ (n : Nat) (s : PackState), meas s ≤ n → is_done (pack_loop n s) := by
  intro n
  induction n with
  | zero =>
      intro s h
      unfold pack_loop is_done
      left
      unfold meas at h
      have hl : s.pm.available.length = 0 := by omega
      exact List.length_eq_zero.mp hl
  | succ n ih =>
      intro s h
      unfold pack_loop
      split
      · rename_i hcond
        unfold is_done
        have hdis : s.pm.available.isEmpty = true ∨ s.unplaced.isEmpty = true := by
          simpa using hcond
        rcases hdis with h1 | h1
        · exact Or.inl (List.isEmpty_iff.mp h1)
        · exact Or.inr (List.isEmpty_iff.mp h1)
      · rename_i hcond
        have hboth : s.pm.available.isEmpty = false ∧ s.unplaced.isEmpty = false := by
          simpa [not_or] using hcond
        have hha : s.pm.available ≠ [] := by
          intro hc
          rw [hc] at hboth
          simp at hboth
        have hhu : s.unplaced ≠ [] := by
          intro hc
          rw [hc] at hboth
          simp at hboth
        have hlt := meas_step_lt s hha hhu
        exact ih (step_once s) (by omega)

theorem pack_loop_of_done {s : PackState} (h : is_done s) :
    ∀ k, pack_loop k s = s := by
  intro k
  cases k with
  | zero => rfl
  | succ k =>
      unfold pack_loop
      rw [if_pos]
      rcases h with h | h <;> simp [h]

theorem pack_loop_stable :
    ∀ (n : Nat) (s : PackState) (m : Nat), meas s ≤ n → n ≤ m →
      pack_loop m s = pack_loop n s := by
  intro n
  induction n with
  | zero =>
      intro s m h hm
      have hdone : is_done s := by
        unfold is_done
        left
        unfold meas at h
        have hl : s.pm.available.length = 0 := by omega
        exact List.length_eq_zero.mp hl
      rw [pack_loop_of_done hdone m, pack_loop_of_done hdone 0]
  | succ n ih =>
      intro s m h hm
      cases m with
      | zero => exact absurd hm (by omega)
      | succ m' =>
          show pack_loop (m' + 1) s = pack_loop (n + 1) s
          unfold pack_loop
          split
          · rfl
          · rename_i hcond
            have hboth : s.pm.available.isEmpty = false ∧ s.unplaced.isEmpty = false := by
              simpa [not_or] using hcond
            have hha : s.pm.available ≠ [] := by
              intro hc
              rw [hc] at hboth
              simp at hboth
            have hhu : s.unplaced ≠ [] := by
              intro hc
              rw [hc] at hboth
              simp at hboth
            have hlt := meas_step_lt s hha hhu
            exact ih (step_once s) m' (by omega) (by omega)

/-- C5: for every container and finite item list the packing loop reaches
its exit condition within the `meas` fuel budget — `pack_items` always
returns with the loop finished, and giving the loop any more fuel changes
nothing. -/
theorem packing_always_terminates :
    ∀ (L W H : ℚ) (items : List Item),
      is_done ((pack_items (init_state L W H) items).2) ∧
      ∀ n, meas (pack_start (init_state L W H) items) ≤ n →
        pack_loop n (pack_start (init_state L W H) items) =
          pack_loop (meas (pack_start (init_state L W H) items))
            (pack_start (init_state L W H) items) := by
  intro L W H items
  constructor
  · exact pack_loop_done_of_fuel _ _ (le_refl _)
  · intro n hn
    exact pack_loop_stable _ _ n (le_refl _) hn

section RatEval

attribute [local semireducible] Rat.mul Rat.add Rat.inv Rat.sub

/-- Witness for C5 at a concrete container and the empty item list. -/
theorem packing_always_terminates_witness :
    is_done ((pack_items (init_state 10 10 10) []).2) ∧
    meas (pack_start (init_state 10 10 10) []) ≤ 5 ∧
    pack_loop 5 (pack_start (init_state 10 10 10) []) =
      pack_loop (meas (pack_start (init_state 10 10 10) []))
        (pack_start (init_state 10 10 10) []) :=
  ⟨(packing_always_terminates 10 10 10 []).1, by decide,
   (packing_always_terminates 10 10 10 []).2 5 (by decide)⟩

/-- C4 (counterexample): calling `pack_items` twice on the same packer
instance does not reproduce the first report.  The placed-item list is not
reset by `pack_items`, so the second call starts with the first call's
placement still committed (and its frontier), places the item again, and
reports two placed items instead of one. -/
theorem pack_repeat_same_instance_counterexample :
    (pack_items (init_state 10 10 10) [unit_box]).1.items_placed = 1 ∧
    (pack_items ((pack_items (init_state 10 10 10) [unit_box]).2) [unit_box]).1.items_placed
      = 2 ∧
    (pack_items ((pack_items (init_state 10 10 10) [unit_box]).2) [unit_box]).1 ≠
      (pack_items (init_state 10 10 10) [unit_box]).1 := by
  refine ⟨by decide, by decide, ?_⟩
  intro hc
  have h1 : (pack_items (init_state 10 10 10) [unit_box]).1.items_placed = 1 := by decide
  have h2 : (pack_items ((pack_items (init_state 10 10 10) [unit_box]).2)
      [unit_box]).1.items_placed = 2 := by decide
  rw [hc, h1] at h2
  exact absurd h2 (by decide)

end RatEval

/-- C4 (amended): each `pack_items` call is a pure function of the packer
state and the item list; in particular any packer whose state equals the
freshly-constructed state of `__init__` yields the report determined by
(container dimensions, items) alone.  State does survive between calls on
one instance, so repeated calls on the same packer need not agree. -/
theorem pack_pure_function_of_fresh_state :
    ∀ (L W H : ℚ) (items : List Item) (s : PackState),
      s.truck_length = L → s.truck_width = W → s.truck_height = H →
      s.placed = [] → s.unplaced = [] → s.pm = (init_state L W H).pm →
      s.max_stack_height = 3 → s.max_weight_per_stack = 1000 →
      pack_items s items = pack_items (init_state L W H) items := by
  intro L W H items s h1 h2 h3 h4 h5 h6 h7 h8
  have hs : s = init_state L W H := by
    cases s
    simp_all [init_state]
  rw [hs]

/-- Witness for the amended C4 at a concrete fresh packer. -/
theorem pack_pure_function_of_fresh_state_witness :
    (init_state 2 3 4).truck_length = 2 ∧ (init_state 2 3 4).truck_width = 3 ∧
    (init_state 2 3 4).truck_height = 4 ∧ (init_state 2 3 4).placed = [] ∧
    (init_state 2 3 4).unplaced = [] ∧
    (init_state 2 3 4).pm = (init_state 2 3 4).pm ∧
    (init_state 2 3 4).max_stack_height = 3 ∧
    (init_state 2 3 4).max_weight_per_stack = 1000 ∧
    pack_items (init_state 2 3 4) [] = pack_items (init_state 2 3 4) [] :=
  ⟨rfl, rfl, rfl, rfl, rfl, rfl, rfl, rfl,
   pack_pure_function_of_fresh_state 2 3 4 [] (init_state 2 3 4)
     rfl rfl rfl rfl rfl rfl rfl rfl⟩

/-! ### C3: one iteration of the placement loop -/

theorem findSome?_attempt_eq_find? (s : PackState) (point : Point3D) (it : Item) :
    ∀ rots : List Rot3,
      (rots.findSome? (fun rotation =>
         let r := attempt_placement s it point rotation
         if r.success then r.placed_item else none)) =
      ((rots.map (fun r => (it, r))).find?
         (fun pr => passes_all_checks s pr.1 point pr.2)).map
         (fun pr => (⟨pr.1, point, pr.2⟩ : PlacedItem)) := by
  intro rots
  induction rots with
  | nil => rfl
  | cons r rs ih =>
      simp only [List.findSome?_cons, List.map_cons, List.find?_cons]
      by_cases hp : passes_all_checks s it point r = true
      · have hsucc : (attempt_placement s it point r).success = true :=
          (attempt_placement_success_iff s it point r).mpr hp
        rcases attempt_placement_cases s it point r with hc | hc
        · rw [hc]
          simp [hp]
        · rw [hc.1] at hsucc
          exact absurd hsucc (by simp)
      · have hsucc : (attempt_placement s it point r).success = false := by
          cases hb : (attempt_placement s it point r).success
          · rfl
          · exact absurd ((attempt_placement_success_iff s it point r).mp hb) hp
        simp [hsucc, hp, ih]

theorem try_place_eq_first_passing (s : PackState) (point : Point3D) :
    try_place_item_at_point s point =
      (first_passing_pair s point).map (fun pr => (⟨pr.1, point, pr.2⟩ : PlacedItem)) := by
  unfold try_place_item_at_point first_passing_pair
  generalize s.unplaced = l
  induction l with
  | nil => rfl
  | cons it rest ih =>
      simp only [List.findSome?_cons, List.flatMap_cons, List.find?_append]
      rw [findSome?_attempt_eq_find? s point it it.get_rotations]
      cases hf : ((it.get_rotations.map (fun r => (it, r))).find?
          (fun pr => passes_all_checks s pr.1 point pr.2)) with
      | some pr => simp [hf]
      | none => simp [hf, ih]

theorem enumFrom_foldl_add_points :
    ∀ (l : List Point3D) (k : Nat) (pm : PMState),
      ((l.enumFrom k).foldl (fun pm ip => add_point pm ip.2 (ip.1 + 1)) pm) =
        add_points_seq pm l (k + 1) := by
  intro l
  induction l with
  | nil => intro k pm; rfl
  | cons p ps ih =>
      intro k pm
      simp only [List.enumFrom, List.foldl_cons, add_points_seq]
      exact ih (k + 1) (add_point pm p (k + 1))

theorem enum_foldl_add_points (l : List Point3D) (pm : PMState) :
    (l.enum.foldl (fun pm ip => add_point pm ip.2 (ip.1 + 1)) pm) =
      add_points_seq pm l 1 := by
  have h := enumFrom_foldl_add_points l 0 pm
  simpa [List.enum] using h

/-- C3: at a popped frontier point, the attempt order, the short-circuit
check sequence with its first-failure reasons, the first-fit commit with
successor priorities 1..k, and permanent blocking all follow the
specification (`placement_step_spec`). -/
theorem placement_step_follows_spec :
    ∀ (s : PackState) (point : Point3D),
      get_next_point s.pm = some point → placement_step_spec s point := by
  intro s point hg
  simp only [placement_step_spec]
  refine ⟨?_, ?_, ?_, ?_⟩
  · intro item rot
    refine ⟨attempt_placement_success_iff _ item point rot, ?_, ?_, ?_, ?_, ?_, ?_⟩
    · intro hsucc
      rcases attempt_placement_cases
          { s with pm := { s.pm with available := sorted_available s.pm } }
          item point rot with hc | hc
      · rw [hc]
      · rw [hc.1] at hsucc
        exact absurd hsucc (by simp)
    · intro h
      unfold attempt_placement
      split_ifs <;> first | rfl | (exfalso; simp_all)
    · intro h1 h2
      unfold attempt_placement
      split_ifs <;> first | rfl | (exfalso; simp_all)
    · intro h1 h2 h3
      unfold attempt_placement
      split_ifs <;> first | rfl | (exfalso; simp_all)
    · intro h1 h2 h3 h4
      unfold attempt_placement
      split_ifs <;> first | rfl | (exfalso; simp_all)
    · intro h1 h2 h3 h4 h5
      unfold attempt_placement
      split_ifs <;> first | rfl | (exfalso; simp_all)
  · exact try_place_eq_first_passing _ point
  · intro pi ht
    rw [step_once_of_some_success hg ht]
    unfold handle_successful_placement
    simp only [enum_foldl_add_points]
  · intro ht
    rw [step_once_of_some_fail hg ht]
    rfl

section RatEval

attribute [local semireducible] Rat.mul Rat.add Rat.inv Rat.sub

/-- Witness for C3 at the fresh packer about to place a unit box at the
origin. -/
theorem placement_step_follows_spec_witness :
    get_next_point (pack_start (init_state 10 10 10) [unit_box]).pm = some ⟨0, 0, 0⟩ ∧
    placement_step_spec (pack_start (init_state 10 10 10) [unit_box]) ⟨0, 0, 0⟩ :=
  ⟨by decide, placement_step_follows_spec _ ⟨0, 0, 0⟩ (by decide)⟩

end RatEval

end BinPacker
